import Mathlib

set_option autoImplicit false
set_option maxRecDepth 16384
set_option maxHeartbeats 2000000

/-!
Verification of the pygapa JParticle codec (src/jsystem/typedchunk.py and
src/jsystem/jpac210.py) against its natural-language specification.

Modelling conventions:
* a byte buffer is a `List Nat` of byte values; multi-byte integers are
  big-endian, exactly as the `pyaurum` primitive codec produces them;
* Python unbounded nonnegative integers (flag words, masks, shifts) are `Nat`;
  values that the source manipulates as signed Python ints are `Int`;
* `float` fields are carried as their raw 32-bit big-endian pattern (a `Nat`);
  the codec never computes with float values, it only moves the four bytes,
  so the pattern is the faithful observable;
* fallible reads return `Option`, and decoding functions that can raise
  return `Except DecodeErr`.
-/

namespace Pygapa

abbrev Buffer := List Nat

/-! ### The pyaurum primitive codec

The `pyaurum` helper library is imported by the repository but is not part of
it, so its primitives are modelled from the spec (section 4.1): fixed-width
big-endian reads that fault when they would run past the end of the buffer,
and exact-inverse writes.  Python slice expressions appearing directly in the
repository sources are modelled by `pySlice`, which clamps and never fails,
exactly like Python slicing. -/

/-- Python slice `buffer[a:b]` for nonnegative `a`, `b`: the bytes from index
`a` (inclusive) to `b` (exclusive), clamped to the buffer; never fails. -/
def pySlice (a b : Nat) (buf : Buffer) : Buffer :=
  (buf.drop a).take (b - a)

/-- Modelled from the spec: `pyaurum.get_u8` reads one byte, failing
(`TruncatedInput`) past the buffer end. -/
def get_u8 (buf : Buffer) (off : Nat) : Option Nat :=
  buf[off]?

/-- Modelled from the spec: `pyaurum.get_u16`, big-endian. -/
def get_u16 (buf : Buffer) (off : Nat) : Option Nat := do
  let a ← get_u8 buf off
  let b ← get_u8 buf (off + 1)
  pure (a * 256 + b)

/-- Modelled from the spec: `pyaurum.get_u32`, big-endian. -/
def get_u32 (buf : Buffer) (off : Nat) : Option Nat := do
  let a ← get_u16 buf off
  let b ← get_u16 buf (off + 2)
  pure (a * 65536 + b)

/-- Two's-complement reinterpretation of a 16-bit unsigned value. -/
def toSigned16 (n : Nat) : Int :=
  if n < 32768 then (n : Int) else (n : Int) - 65536

/-- Two's-complement reinterpretation of a 32-bit unsigned value. -/
def toSigned32 (n : Nat) : Int :=
  if n < 2147483648 then (n : Int) else (n : Int) - 4294967296

/-- Modelled from the spec: `pyaurum.get_s16`, big-endian signed. -/
def get_s16 (buf : Buffer) (off : Nat) : Option Int :=
  (get_u16 buf off).map toSigned16

/-- Modelled from the spec: `pyaurum.get_s32`, big-endian signed. -/
def get_s32 (buf : Buffer) (off : Nat) : Option Int :=
  (get_u32 buf off).map toSigned32

/-- Modelled from the spec: `pyaurum.get_bool` reads one byte, nonzero test. -/
def get_bool (buf : Buffer) (off : Nat) : Option Bool :=
  (get_u8 buf off).map (· ≠ 0)

/-- Modelled from the spec: `pyaurum.get_f32` reads a 4-byte big-endian float;
the value is carried as its raw 32-bit pattern. -/
def get_f32 (buf : Buffer) (off : Nat) : Option Nat :=
  get_u32 buf off

/-- Modelled from the spec: `pyaurum.get_u8_array` reads `n` consecutive
bytes, failing past the buffer end. -/
def get_u8_array (buf : Buffer) (off n : Nat) : Option Buffer :=
  if off + n ≤ buf.length then some (pySlice off (off + n) buf) else none

/-- Modelled from the spec: `pyaurum.pack_u8` (exact inverse of the read). -/
def pack_u8 (v : Nat) : Buffer := [v % 256]

/-- Modelled from the spec: `pyaurum.pack_u16`, big-endian. -/
def pack_u16 (v : Nat) : Buffer := [v / 256 % 256, v % 256]

/-- Modelled from the spec: `pyaurum.pack_u32`, big-endian. -/
def pack_u32 (v : Nat) : Buffer :=
  [v / 16777216 % 256, v / 65536 % 256, v / 256 % 256, v % 256]

/-- Modelled from the spec: `pyaurum.pack_s16`, big-endian two's complement. -/
def pack_s16 (v : Int) : Buffer := pack_u16 (v % 65536).toNat

/-- Modelled from the spec: `pyaurum.pack_s32`, big-endian two's complement. -/
def pack_s32 (v : Int) : Buffer := pack_u32 (v % 4294967296).toNat

/-- Modelled from the spec: `pyaurum.pack_bool`. -/
def pack_bool (b : Bool) : Buffer := [if b then 1 else 0]

/-- Modelled from the spec: `pyaurum.pack_f32` writes the raw pattern back. -/
def pack_f32 (v : Nat) : Buffer := pack_u32 v

/-- Modelled from the spec: `pyaurum.align4 data` returns the zero padding
bytes needed to bring `data` to a 4-byte boundary (callers append them). -/
def align4pad (buf : Buffer) : Buffer :=
  List.replicate ((4 - buf.length % 4) % 4) 0

/-- Modelled from the spec: `pyaurum.align32 data` returns the zero padding
bytes needed to bring `data` to a 32-byte boundary. -/
def align32pad (buf : Buffer) : Buffer :=
  List.replicate ((32 - buf.length % 32) % 32) 0

/-- Modelled from the spec: `pyaurum.read_fixed_string` extracts a 0x14-byte
fixed-width name, stopping at the first NUL byte. -/
def read_fixed_string (buf : Buffer) (off len : Nat) : Buffer :=
  (pySlice off (off + len) buf).takeWhile (· ≠ 0)

/-- Modelled from the spec: `pyaurum.pack_fixed_string` pads the name with
NUL bytes to the fixed width. -/
def pack_fixed_string (name : Buffer) (len : Nat) : Buffer :=
  name.take len ++ List.replicate (len - (name.take len).length) 0

/-! ### Flag codec (src/jsystem/typedchunk.py, lines 255-262)

The flag word is a nonnegative Python int; `var & ~(mask << shift)` on a
nonnegative word is exactly `Nat.ldiff var (mask <<< shift)` because Python
`~x` is the infinite two's-complement NOT. -/

/-- `get_flag_int var right_shift mask = var >> right_shift & mask`
(typedchunk.py line 255-256). -/
def get_flag_int (var right_shift mask : Nat) : Nat :=
  var >>> right_shift &&& mask

/-- `set_flag var left_shift mask val`: `result = var & ~(mask << left_shift);
result |= (val << left_shift)` (typedchunk.py lines 259-262).  Note that the
source does NOT mask `val`. -/
def set_flag (var left_shift mask val : Nat) : Nat :=
  (Nat.ldiff var (mask <<< left_shift)) ||| (val <<< left_shift)

/-- Spec-following comparison definition (for claim C2): the spec asserts the
stored word is `(word & ~(bit_mask << bit_offset)) |
((int(value) & bit_mask) << bit_offset)`, i.e. with the value masked. -/
def set_flag_specform (var left_shift mask val : Nat) : Nat :=
  (Nat.ldiff var (mask <<< left_shift)) ||| ((val &&& mask) <<< left_shift)

/-! ### Bounded integer field setters (src/jsystem/typedchunk.py)

Each `set_val` tests the CURRENT value `self.val`, not the incoming value.
Values are Python ints, modelled as `Int`. -/

/-- `U8Chunk.set_val` (typedchunk.py lines 41-47). -/
def u8_set_val (cur v : Int) : Int :=
  if cur > 255 then 255 else if cur < 0 then 0 else v

/-- `S8Chunk.set_val` (typedchunk.py lines 59-65); note the lower clamp
bound is `-127`, not `-128`. -/
def s8_set_val (cur v : Int) : Int :=
  if cur > 127 then 127 else if cur < -127 then -127 else v

/-- `U16Chunk.set_val` (typedchunk.py lines 78-84). -/
def u16_set_val (cur v : Int) : Int :=
  if cur > 65535 then 65535 else if cur < 0 then 0 else v

/-- `U32Chunk.set_val` (typedchunk.py lines 97-103). -/
def u32_set_val (cur v : Int) : Int :=
  if cur > 4294967295 then 4294967295 else if cur < 0 then 0 else v

/-! ### Claims C2, C3, C10 -/

/-- The and-not of an all-zero word is zero (evaluation helper for
`Nat.ldiff`, which the kernel does not reduce). -/
theorem ldiff_zero_left (n : Nat) : Nat.ldiff 0 n = 0 :=
  Nat.eq_of_testBit_eq fun i => by simp [Nat.testBit_ldiff]

/-- C2, counterexample: the source `set_flag` does not mask the incoming
value.  With word 0, descriptor (offset 0, mask 1) and value 2, the code
stores 2, while the claimed formula stores `(0 & ~1) | ((2 & 1) << 0) = 0`;
moreover bit 1 of the word, which is outside the descriptor's mask range,
changes from 0 to 1. -/
theorem set_flag_unmasked_counterexample :
    set_flag 0 0 1 2 = 2 ∧ set_flag_specform 0 0 1 2 = 0 ∧
    (set_flag 0 0 1 2).testBit 1 ≠ (0 : Nat).testBit 1 := by
  refine ⟨?_, ?_, ?_⟩ <;>
    simp only [set_flag, set_flag_specform, ldiff_zero_left] <;> decide

/-- C2, amended: the stored word is
`(word & ~(mask << offset)) | (value << offset)` with the value NOT masked.
When the value has no bits outside the mask (`v &&& m = v`), this coincides
with the claimed masked formula and every bit outside the descriptor's mask
range is left unchanged; values wider than the mask leak into other bits
rather than being truncated. -/
theorem set_flag_masked_value_agrees (w s m v : Nat) (hv : v &&& m = v) :
    set_flag w s m v = set_flag_specform w s m v ∧
    ∀ i, ¬ (m <<< s).testBit i → (set_flag w s m v).testBit i = w.testBit i := by
  constructor
  · unfold set_flag set_flag_specform
    rw [hv]
  · intro i hi
    have hvm : (v <<< s).testBit i = false := by
      rw [Nat.testBit_shiftLeft]
      rcases Nat.lt_or_ge i s with hlt | hge
      · simp [Nat.not_le_of_lt hlt]
      · have hm : ¬ m.testBit (i - s) := by
          intro hmb
          exact hi (by simp [Nat.testBit_shiftLeft, hge, hmb])
        have : v.testBit (i - s) = false := by
          have := congrArg (fun x => x.testBit (i - s)) hv
          simpa [Nat.testBit_land, hm] using this.symm
        simp [this]
    unfold set_flag
    rw [Nat.testBit_or, Nat.testBit_ldiff, hvm]
    simp [hi]

/-- C2 amended, witness at word 5, offset 4, mask 3, value 2. -/
theorem set_flag_masked_value_agrees_witness :
    set_flag 5 4 3 2 = set_flag_specform 5 4 3 2 :=
  (set_flag_masked_value_agrees 5 4 3 2 (by decide)).1

/-- C3: for every flag word `w` and descriptor (shift `s`, mask `m`),
writing back the value just read leaves the word unchanged, and reading
after writing any value returns that value truncated to the mask. -/
theorem set_flag_get_flag_roundtrip (w s m : Nat) :
    set_flag w s m (get_flag_int w s m) = w ∧
    ∀ v : Nat, get_flag_int (set_flag w s m v) s m = v &&& m := by
  constructor
  · apply Nat.eq_of_testBit_eq
    intro i
    unfold set_flag get_flag_int
    rw [Nat.testBit_or, Nat.testBit_ldiff]
    rcases Nat.lt_or_ge i s with hlt | hge
    · simp [Nat.testBit_shiftLeft, Nat.not_le_of_lt hlt]
    · have hs : s + (i - s) = i := by omega
      simp only [Nat.testBit_shiftLeft, Nat.testBit_land, Nat.testBit_shiftRight,
        ge_iff_le, hge, decide_True, Bool.true_and, hs]
      cases w.testBit i <;> cases m.testBit (i - s) <;> rfl
  · intro v
    apply Nat.eq_of_testBit_eq
    intro i
    unfold set_flag get_flag_int
    simp only [Nat.testBit_land, Nat.testBit_shiftRight, Nat.testBit_or,
      Nat.testBit_ldiff, Nat.testBit_shiftLeft, ge_iff_le, Nat.le_add_right,
      decide_True, Bool.true_and, Nat.add_sub_cancel_left]
    cases m.testBit i <;> cases v.testBit i <;> cases w.testBit (s + i) <;> rfl

/-- C10, counterexample: the claim says clamping is decided by whether the
current value is inside the type's range, but `S8Chunk.set_val` clamps at
-127: with current value -128 (inside the s8 range [-128, 127]) and incoming
value 5, the code stores -127, not 5. -/
theorem s8_set_val_neg128_counterexample :
    (-128 : Int) ≥ -128 ∧ (-128 : Int) ≤ 127 ∧
    s8_set_val (-128) 5 = -127 ∧ s8_set_val (-128) 5 ≠ 5 := by
  decide

/-- C10, amended: each bounded setter tests the chunk's current value against
the bounds the code actually uses — [0, 255] for U8, [-127, 127] for S8 (the
lower bound is -127, one above the s8 minimum), [0, 65535] for U16 and
[0, 4294967295] for U32.  A current value inside the tested bounds stores the
incoming value verbatim (even out of range); a current value above stores the
upper bound and discards the incoming value; a current value below stores the
lower bound. -/
theorem bounded_set_val_tests_current (cur v : Int) :
    ((0 ≤ cur ∧ cur ≤ 255) → u8_set_val cur v = v) ∧
    (cur > 255 → u8_set_val cur v = 255) ∧
    (cur < 0 → u8_set_val cur v = 0) ∧
    ((-127 ≤ cur ∧ cur ≤ 127) → s8_set_val cur v = v) ∧
    (cur > 127 → s8_set_val cur v = 127) ∧
    (cur < -127 → s8_set_val cur v = -127) ∧
    ((0 ≤ cur ∧ cur ≤ 65535) → u16_set_val cur v = v) ∧
    (cur > 65535 → u16_set_val cur v = 65535) ∧
    (cur < 0 → u16_set_val cur v = 0) ∧
    ((0 ≤ cur ∧ cur ≤ 4294967295) → u32_set_val cur v = v) ∧
    (cur > 4294967295 → u32_set_val cur v = 4294967295) ∧
    (cur < 0 → u32_set_val cur v = 0) := by
  simp only [u8_set_val, s8_set_val, u16_set_val, u32_set_val]
  refine ⟨?_, ?_, ?_, ?_, ?_, ?_, ?_, ?_, ?_, ?_, ?_, ?_⟩ <;>
    intro h <;> split_ifs <;> omega

/-- C10 amended, witness: with current value 7 (in range) the incoming value
999 is stored verbatim even though it is outside the u8 range. -/
theorem bounded_set_val_tests_current_witness :
    u8_set_val 7 999 = 999 :=
  (bounded_set_val_tests_current 7 999).1 ⟨by decide, by decide⟩

/-! ### Typed chunks and chunk packing
(src/jsystem/typedchunk.py; src/jsystem/jpac210.py lines 54-104)

A `TChunk` is one element of a chunk's `auto_chunks` list together with its
current value.  `flagCond` is `FlagConditionalChunk`: the governing bit
number plus the wrapped chunk; in the source the governing flag word is
shared by object reference, here it is passed explicitly to `pack` and
`get_size`. -/

/-- Modelled from the spec: `pyaurum.pack_s8`, two's complement byte. -/
def pack_s8 (v : Int) : Buffer := pack_u8 (v.emod 256).toNat

inductive TChunk where
  | u8c (val : Nat)
  | s8c (val : Int)
  | u16c (val : Nat)
  | u32c (val : Nat)
  | u32bytes (val : Buffer)
  | f32c (val : Nat)
  | boolc (val : Bool)
  | offc (n : Nat)
  | flagCond (flagNum : Nat) (inner : TChunk)
  deriving DecidableEq

/-- `FlagConditionalChunk.is_condition_met` (typedchunk.py lines 192-196):
`(flag.val >> flag_num) & 0x1` as a Python truth value. -/
def is_condition_met (flagVal flagNum : Nat) : Bool :=
  (flagVal >>> flagNum) &&& 1 ≠ 0

/-- `TypedChunk.pack` for each concrete chunk type; `ConditionalChunk.pack`
returns `None` when the condition is unmet (typedchunk.py lines 167-169). -/
def tchunkPack (flagVal : Nat) : TChunk → Option Buffer
  | .u8c v => some (pack_u8 v)
  | .s8c v => some (pack_s8 v)
  | .u16c v => some (pack_u16 v)
  | .u32c v => some (pack_u32 v)
  | .u32bytes v => some v
  | .f32c v => some (pack_f32 v)
  | .boolc b => some (pack_bool b)
  | .offc n => some (List.replicate n 0)
  | .flagCond b inner =>
      if is_condition_met flagVal b then tchunkPack flagVal inner else none

/-- `TypedChunk.get_size`; `ConditionalChunk.get_size` is 0 when the
condition is unmet (typedchunk.py lines 178-181). -/
def tchunkSize (flagVal : Nat) : TChunk → Nat
  | .u8c _ => 1
  | .s8c _ => 1
  | .u16c _ => 2
  | .u32c _ => 4
  | .u32bytes _ => 4
  | .f32c _ => 4
  | .boolc _ => 1
  | .offc n => n
  | .flagCond b inner =>
      if is_condition_met flagVal b then tchunkSize flagVal inner else 0

/-- `JPAChunk.pack` (jpac210.py lines 64-71): concatenate each auto chunk's
packed bytes, skipping `None` results. -/
def autoPack (flagVal : Nat) (cs : List TChunk) : Buffer :=
  (cs.filterMap (tchunkPack flagVal)).flatten

/-- `JPAStandardChunk.pack` (jpac210.py lines 93-98): body, zero-padded to a
4-byte boundary, prefixed by the 4-byte tag and the size field
`8 + len(out_data)`. -/
def standardPack (magic : Buffer) (flagVal : Nat) (cs : List TChunk) : Buffer :=
  let body := autoPack flagVal cs
  let out := body ++ align4pad body
  magic ++ pack_s32 (8 + out.length) ++ out

/-! ### Claim C4: conditional fields and encoded width -/

/-- A conditional chunk's inner chunk is unconditional and packs exactly its
declared width (true of every conditional in the source: they all wrap
`F32Chunk`). -/
def innerOk : TChunk → Bool
  | .flagCond _ _ => false
  | .u32bytes v => v.length = 4
  | _ => true

/-- No nested conditionals, and conditional inners pack their declared
width. -/
def flatc : TChunk → Bool
  | .flagCond _ inner => innerOk inner
  | _ => true

/-- The total declared width of the conditional fields governed by bit `b`
(inners are unconditional, so their size does not depend on the flag). -/
def governedWidth (b : Nat) : TChunk → Nat
  | .flagCond b2 inner => if b2 = b then tchunkSize 0 inner else 0
  | _ => 0

theorem is_condition_met_eq_testBit (f n : Nat) :
    is_condition_met f n = f.testBit n := by
  simp [is_condition_met, Nat.testBit, Nat.and_comm]

theorem testBit_one_shift (b n : Nat) : (1 <<< b).testBit n = decide (n = b) := by
  rw [Nat.testBit_shiftLeft]
  rcases Nat.lt_or_ge n b with h | h
  · have h1 : ¬ (b ≤ n) := Nat.not_le_of_lt h
    have h2 : ¬ (n = b) := by omega
    simp [h1, h2]
  · have h2 : (1 : Nat).testBit (n - b) = decide (n - b = 0) := by
      cases hnb : n - b with
      | zero => decide
      | succ k => rw [Nat.testBit_succ]; simp
    rw [h2]
    have h3 : (decide (n ≥ b)) = true := decide_eq_true h
    rw [h3, Bool.true_and]
    exact decide_eq_decide.mpr (by omega)

theorem is_condition_met_or_shift (w b n : Nat) :
    is_condition_met (w ||| 1 <<< b) n =
      (is_condition_met w n || decide (n = b)) := by
  simp only [is_condition_met_eq_testBit]
  rw [Nat.testBit_or, testBit_one_shift]

theorem autoPack_cons (w : Nat) (c : TChunk) (cs : List TChunk) :
    autoPack w (c :: cs) = (tchunkPack w c).getD [] ++ autoPack w cs := by
  cases h : tchunkPack w c <;> simp [autoPack, List.filterMap_cons, h]

theorem tchunkPack_nonCond_indep (w w2 : Nat) (c : TChunk)
    (h : ∀ b inner, c ≠ .flagCond b inner) :
    tchunkPack w c = tchunkPack w2 c := by
  cases c <;> first
    | rfl
    | exact absurd rfl (h _ _)

theorem tchunkPack_innerOk_length (inner : TChunk) (hok : innerOk inner = true)
    (w : Nat) : ∃ bs, tchunkPack w inner = some bs ∧ bs.length = tchunkSize w inner := by
  cases inner <;>
    simp_all [innerOk, tchunkPack, tchunkSize, pack_u8, pack_s8, pack_u16,
      pack_u32, pack_f32, pack_bool]

/-- C4: in `JPAChunk.pack`, an absent conditional field contributes zero
bytes (its `pack` returns `None` and is skipped, its `get_size` is 0), a
present one contributes exactly its inner field's declared width, and
setting a governing bit that was 0 grows the encoding of the owning chunk by
exactly the total declared width of the conditional fields that bit governs
(reading the equation right to left: clearing the bit removes exactly that
width). -/
theorem conditional_pack_width_toggle (cs : List TChunk) (b w : Nat)
    (hflat : ∀ c ∈ cs, flatc c = true)
    (hb : is_condition_met w b = false) :
    (autoPack (w ||| 1 <<< b) cs).length
      = (autoPack w cs).length + (cs.map (governedWidth b)).sum ∧
    ∀ bn inner, TChunk.flagCond bn inner ∈ cs →
      (is_condition_met w bn = false →
        tchunkPack w (.flagCond bn inner) = none ∧
        tchunkSize w (.flagCond bn inner) = 0) ∧
      (is_condition_met w bn = true →
        ∃ bs, tchunkPack w (.flagCond bn inner) = some bs ∧
          bs.length = tchunkSize w (.flagCond bn inner) ∧
          tchunkSize w (.flagCond bn inner) = tchunkSize 0 inner) := by
  constructor
  · induction cs with
    | nil => simp [autoPack]
    | cons c rest ih =>
      have hc := hflat c (by simp)
      have hrest := ih (fun x hx => hflat x (List.mem_cons_of_mem _ hx))
      rw [autoPack_cons, autoPack_cons]
      simp only [List.length_append, List.map_cons, List.sum_cons]
      rw [hrest]
      have hhead : ((tchunkPack (w ||| 1 <<< b) c).getD []).length
          = ((tchunkPack w c).getD []).length + governedWidth b c := by
        cases c with
        | flagCond bn inner =>
          have hok : innerOk inner = true := by simpa [flatc] using hc
          by_cases hbn : bn = b
          · subst hbn
            have hcondw1 : is_condition_met (w ||| 1 <<< bn) bn = true := by
              rw [is_condition_met_or_shift]; simp
            obtain ⟨bs2, hbs2, hlen2⟩ :=
              tchunkPack_innerOk_length inner hok (w ||| 1 <<< bn)
            have hsz : tchunkSize (w ||| 1 <<< bn) inner = tchunkSize 0 inner := by
              cases inner <;> simp_all [innerOk, tchunkSize]
            simp [tchunkPack, hcondw1, hb, hbs2, governedWidth, hlen2, hsz]
          · have heq : is_condition_met (w ||| 1 <<< b) bn = is_condition_met w bn := by
              rw [is_condition_met_or_shift]; simp [hbn]
            simp only [tchunkPack, heq, governedWidth, if_neg hbn]
            cases hmet : is_condition_met w bn
            · simp
            · obtain ⟨bs, hbs, _⟩ := tchunkPack_innerOk_length inner hok w
              have hindep : tchunkPack (w ||| 1 <<< b) inner = tchunkPack w inner :=
                tchunkPack_nonCond_indep _ _ inner (by
                  intro b2 i2 hcase
                  rw [hcase] at hok
                  simp [innerOk] at hok)
              simp [hbs, hindep]
        | u8c v => simp [tchunkPack, governedWidth]
        | s8c v => simp [tchunkPack, governedWidth]
        | u16c v => simp [tchunkPack, governedWidth]
        | u32c v => simp [tchunkPack, governedWidth]
        | u32bytes v => simp [tchunkPack, governedWidth]
        | f32c v => simp [tchunkPack, governedWidth]
        | boolc v => simp [tchunkPack, governedWidth]
        | offc n => simp [tchunkPack, governedWidth]
      omega
  · intro bn inner hmem
    have hok : innerOk inner = true := by simpa [flatc] using hflat _ hmem
    constructor
    · intro hoff
      simp [tchunkPack, tchunkSize, hoff]
    · intro hon
      obtain ⟨bs, hbs, hlen⟩ := tchunkPack_innerOk_length inner hok w
      refine ⟨bs, ?_, ?_, ?_⟩
      · simp [tchunkPack, hon, hbs]
      · simp [tchunkSize, hon, hlen]
      · have : tchunkSize w inner = tchunkSize 0 inner := by
          cases inner <;> simp_all [innerOk, tchunkSize]
        simp [tchunkSize, hon, this]

/-- C4, witness: the ten BSP1 texture-scroll conditionals all governed by
flag bit 24 (jpac210.py lines 364-373) together with the governing flag
word; setting bit 24 from 0 grows the auto-chunk encoding by 40 bytes, the
sum of the ten declared 4-byte widths. -/
theorem conditional_pack_width_toggle_witness :
    (autoPack (0 ||| 1 <<< 24)
        [.flagCond 24 (.f32c 0), .flagCond 24 (.f32c 0),
         .flagCond 24 (.f32c 0x3F800000), .flagCond 24 (.f32c 0x3F800000),
         .flagCond 24 (.f32c 0), .flagCond 24 (.f32c 0),
         .flagCond 24 (.f32c 0), .flagCond 24 (.f32c 0x3F800000),
         .flagCond 24 (.f32c 0x3F800000), .flagCond 24 (.f32c 0)]).length
      = (autoPack 0
        [.flagCond 24 (.f32c 0), .flagCond 24 (.f32c 0),
         .flagCond 24 (.f32c 0x3F800000), .flagCond 24 (.f32c 0x3F800000),
         .flagCond 24 (.f32c 0), .flagCond 24 (.f32c 0),
         .flagCond 24 (.f32c 0), .flagCond 24 (.f32c 0x3F800000),
         .flagCond 24 (.f32c 0x3F800000), .flagCond 24 (.f32c 0)]).length
        + ([.flagCond 24 (.f32c 0), .flagCond 24 (.f32c 0),
            .flagCond 24 (.f32c 0x3F800000), .flagCond 24 (.f32c 0x3F800000),
            .flagCond 24 (.f32c 0), .flagCond 24 (.f32c 0),
            .flagCond 24 (.f32c 0), .flagCond 24 (.f32c 0x3F800000),
            .flagCond 24 (.f32c 0x3F800000),
            .flagCond 24 (.f32c 0)].map (governedWidth 24)).sum :=
  (conditional_pack_width_toggle _ 24 0 (by decide) (by decide)).1

/-! ### The keyframe-block chunk pack (jpac210.py lines 271-278)

`JPAKeyBlock.pack` produces the fresh body (fixed header with the recomputed
keyframe count, then the keyframes), calls `identify_changes` (line 276,
with the default `set_binary_data=True`), which stores the fresh body into
`self.binary_data` whenever it differs from the stored bytes, and then pads
with `align4(self.binary_data)` (line 277) — which at that point holds the
fresh body, so the fresh body is what gets padded. -/

/-- A keyframe is 4 floats (time, value, tangent-in, tangent-out), carried
as raw 32-bit patterns (jpac210.py lines 133-139). -/
def keyframePack (k : Nat × Nat × Nat × Nat) : Buffer :=
  pack_f32 k.1 ++ pack_f32 k.2.1 ++ pack_f32 k.2.2.1 ++ pack_f32 k.2.2.2

/-- The in-memory state of a `JPAKeyBlock`: the fixed header fields, the
keyframe list, and the stored raw body `binary_data` (kept by decode; `pack`
refreshes it to the fresh body via `identify_changes` before padding, so it
does not influence the packed output). -/
structure KeyBlockState where
  keyType : Nat
  unused : Nat
  loop : Bool
  keyframes : List (Nat × Nat × Nat × Nat)
  binary_data : Buffer

/-- The fresh body `JPAKeyBlock.pack` builds (jpac210.py lines 271-275):
the four fixed auto chunks with `key_count = len(keyframes)` recomputed,
followed by the keyframes. -/
def kfa1Body (st : KeyBlockState) : Buffer :=
  autoPack 0
      [.u8c st.keyType, .u8c st.keyframes.length, .u8c st.unused,
       .boolc st.loop]
    ++ (st.keyframes.map keyframePack).flatten

/-- `JPAKeyBlock.pack` (jpac210.py lines 271-278): build the fresh body;
`identify_changes` (line 276) refreshes `self.binary_data` to that fresh
body, so the `align4(self.binary_data)` at line 277 pads the fresh body;
prefix tag and size. -/
def kfa1Pack (st : KeyBlockState) : Buffer :=
  let out := kfa1Body st ++ align4pad (kfa1Body st)
  [75, 70, 65, 49] ++ pack_s32 (8 + out.length) ++ out

/-- Any chunk of the shape 4-byte tag, size field `8 + len(out)`, and
`out = body ++ align4(body)` satisfies the alignment invariant: total
length `8 + padded body`, a multiple of 4, with the size field at bytes
4..8 holding exactly that total. -/
theorem sized_chunk_aligned (magic body : Buffer) (hmagic : magic.length = 4) :
    (magic ++ pack_s32 (8 + (body ++ align4pad body).length)
        ++ (body ++ align4pad body)).length
      = 8 + (body ++ align4pad body).length ∧
    (magic ++ pack_s32 (8 + (body ++ align4pad body).length)
        ++ (body ++ align4pad body)).length % 4 = 0 ∧
    pySlice 4 8 (magic ++ pack_s32 (8 + (body ++ align4pad body).length)
        ++ (body ++ align4pad body))
      = pack_s32 (8 + (body ++ align4pad body).length) := by
  have hpad : (body.length + (align4pad body).length) % 4 = 0 := by
    simp only [align4pad, List.length_replicate]
    omega
  refine ⟨?_, ?_, ?_⟩
  · simp only [List.length_append, hmagic, pack_s32, pack_u32,
      List.length_cons, List.length_nil]
    try omega
  · simp only [List.length_append, hmagic, pack_s32, pack_u32,
      List.length_cons, List.length_nil]
    omega
  · simp only [pySlice]
    rw [List.append_assoc, List.drop_left' hmagic]
    have h4 : (pack_s32
        (8 + (body ++ align4pad body).length)).length = 4 := by
      simp [pack_s32, pack_u32]
    rw [show (8 : Nat) - 4 = 4 from rfl, List.take_left' h4]

/-- The invariant instance for the standard chunk pack. -/
theorem standardPack_aligned (magic : Buffer) (w : Nat) (cs : List TChunk)
    (hmagic : magic.length = 4) :
    (standardPack magic w cs).length
        = 8 + (autoPack w cs ++ align4pad (autoPack w cs)).length ∧
    (standardPack magic w cs).length % 4 = 0 ∧
    pySlice 4 8 (standardPack magic w cs)
        = pack_s32 (8 + (autoPack w cs ++ align4pad (autoPack w cs)).length) := by
  have hpad : ((autoPack w cs).length + (align4pad (autoPack w cs)).length) % 4
      = 0 := by
    simp only [align4pad, List.length_replicate]
    omega
  refine ⟨?_, ?_, ?_⟩
  · simp only [standardPack, List.length_append, hmagic, pack_s32, pack_u32,
      List.length_cons, List.length_nil]
    try omega
  · simp only [standardPack, List.length_append, hmagic, pack_s32, pack_u32,
      List.length_cons, List.length_nil]
    omega
  · simp only [standardPack, pySlice]
    rw [List.append_assoc, List.drop_left' hmagic]
    have h4 : (pack_s32
        (8 + (autoPack w cs ++ align4pad (autoPack w cs)).length)).length = 4 := by
      simp [pack_s32, pack_u32]
    rw [show (8 : Nat) - 4 = 4 from rfl, List.take_left' h4]

/-- C5 helper-witness for the true part: the standard-pack invariant at a
concrete chunk list. -/
theorem standardPack_aligned_witness :
    (standardPack [66, 69, 77, 49] 0 [.u8c 7]).length
        = 8 + (autoPack 0 [.u8c 7] ++ align4pad (autoPack 0 [.u8c 7])).length :=
  (standardPack_aligned [66, 69, 77, 49] 0 [.u8c 7] rfl).1

/-! ### Chunk field layouts and decoding

Each standard chunk's `auto_chunks` list, viewed as a layout of field kinds
(the values are filled in by `unpack`).  `readFields` is `JPAChunk.unpack`
(jpac210.py lines 57-60): run the ordered field list, each consuming its own
width. -/

/-- Modelled from the spec: `pyaurum.get_s8`. -/
def toSigned8 (n : Nat) : Int :=
  if n < 128 then (n : Int) else (n : Int) - 256

/-- Modelled from the spec: `pyaurum.get_s8`, one signed byte. -/
def get_s8 (buf : Buffer) (off : Nat) : Option Int :=
  (get_u8 buf off).map toSigned8

inductive FKind where
  | u8k
  | s8k
  | u16k
  | u32k
  | f32k
  | bytes4k
  | boolk
  | offk (n : Nat)

inductive FVal where
  | nv (x : Nat)
  | iv (x : Int)
  | bv (x : Buffer)
  | bb (x : Bool)
  | unit

def fkSize : FKind → Nat
  | .u8k => 1
  | .s8k => 1
  | .u16k => 2
  | .u32k => 4
  | .f32k => 4
  | .bytes4k => 4
  | .boolk => 1
  | .offk n => n

/-- One field's `unpack`.  `U32ChunkBytes.unpack` (typedchunk.py lines
110-111) is a Python slice and never fails; `Offset.unpack` is a no-op; all
other kinds read through the `pyaurum` primitive codec and fail past the
buffer end. -/
def readField (buf : Buffer) (off : Nat) : FKind → Option FVal
  | .u8k => (get_u8 buf off).map .nv
  | .s8k => (get_s8 buf off).map .iv
  | .u16k => (get_u16 buf off).map .nv
  | .u32k => (get_u32 buf off).map .nv
  | .f32k => (get_f32 buf off).map .nv
  | .bytes4k => some (.bv (pySlice off (off + 4) buf))
  | .boolk => (get_bool buf off).map .bb
  | .offk _ => some .unit

/-- `JPAChunk.unpack` (jpac210.py lines 57-60): each field consumes its own
width and advances the cursor. -/
def readFields (buf : Buffer) : Nat → List FKind → Option (List FVal)
  | _, [] => some []
  | off, k :: ks => do
      let v ← readField buf off k
      let rest ← readFields buf (off + fkSize k) ks
      pure (v :: rest)

/-- One field's `pack` given its value (unreachable kind/value mismatches
produce no bytes). -/
def packField : FKind → FVal → Buffer
  | .u8k, .nv v => pack_u8 v
  | .s8k, .iv v => pack_s8 v
  | .u16k, .nv v => pack_u16 v
  | .u32k, .nv v => pack_u32 v
  | .f32k, .nv v => pack_f32 v
  | .bytes4k, .bv v => v
  | .boolk, .bb b => pack_bool b
  | .offk n, _ => List.replicate n 0
  | _, _ => []

def layoutPack (layout : List FKind) (vals : List FVal) : Buffer :=
  (List.zipWith packField layout vals).flatten

/-- `JPADynamicsBlock` auto chunks (jpac210.py lines 147-202): flags (u32),
unknown (raw 4 bytes), 22 floats, 8 u16s, rate_step (u8), 3 bytes padding. -/
def bem1Layout : List FKind :=
  [.u32k, .bytes4k] ++ List.replicate 22 .f32k ++ List.replicate 8 .u16k
    ++ [.u8k, .offk 3]

/-- `JPAFieldBlock` auto chunks (jpac210.py lines 205-239): flags (u32),
13 floats, cycle (u8), 3 bytes padding. -/
def fld1Layout : List FKind :=
  [.u32k] ++ List.replicate 13 .f32k ++ [.u8k, .offk 3]

/-- `JPAExtraShape` auto chunks (jpac210.py lines 501-548): flags (u32),
7 floats, 2 u16s, 13 floats. -/
def esp1Layout : List FKind :=
  [.u32k] ++ List.replicate 7 .f32k ++ [.u16k, .u16k]
    ++ List.replicate 13 .f32k

/-- `JPAChildShape` auto chunks (jpac210.py lines 551-595): flags (u32),
10 floats, 2 raw colors, timing (f32), life and rate (u16), step and
texture index (u8), rotate speed (u16). -/
def ssp1Layout : List FKind :=
  [.u32k] ++ List.replicate 10 .f32k
    ++ [.bytes4k, .bytes4k, .f32k, .u16k, .u16k, .u8k, .u8k, .u16k]

/-- `JPAExTexShape` auto chunks (jpac210.py lines 597-618): flags (u32),
6 floats, matrix scale (s8), 2 u8s, 1 byte padding. -/
def etx1Layout : List FKind :=
  [.u32k] ++ List.replicate 6 .f32k ++ [.s8k, .u8k, .u8k, .offk 1]

/-- The decoded state of a standard chunk: its field values and the stored
raw body (`binary_data`). -/
structure StdChunkData where
  vals : List FVal
  binary_data : Buffer

/-- `JPAStandardChunk.unpack` (jpac210.py lines 84-88): read the size field,
stash the raw body (`size - 8` bytes past the 8-byte header, a clamped
Python slice), then run the field list from offset + 8.  Negative declared
sizes are outside the modelled range (`Int.toNat` clamps them to 0). -/
def stdChunkUnpack (layout : List FKind) (buf : Buffer) (off : Nat) :
    Option StdChunkData := do
  let size ← get_s32 buf (off + 4)
  let bd := pySlice (off + 8) (off + 8 + (size - 8).toNat) buf
  let vals ← readFields buf (off + 8) layout
  pure ⟨vals, bd⟩

/-- `JPAStandardChunk.pack` for a decoded standard chunk (jpac210.py lines
93-98), via its layout. -/
def stdChunkPack (magic : Buffer) (layout : List FKind) (c : StdChunkData) :
    Buffer :=
  let body := layoutPack layout c.vals
  let out := body ++ align4pad body
  magic ++ pack_s32 (8 + out.length) ++ out

/-- `JPAKeyframe.unpack` (jpac210.py lines 133-139): 4 floats. -/
def keyframeUnpack (buf : Buffer) (off : Nat) :
    Option (Nat × Nat × Nat × Nat) := do
  let t ← get_f32 buf off
  let v ← get_f32 buf (off + 4)
  let ti ← get_f32 buf (off + 8)
  let to2 ← get_f32 buf (off + 12)
  pure (t, v, ti, to2)

/-- The keyframe read loop of `JPAKeyBlock.unpack` (jpac210.py lines
258-261): `count` 16-byte records. -/
def readKeyframes (buf : Buffer) (off : Nat) :
    Nat → Option (List (Nat × Nat × Nat × Nat))
  | 0 => some []
  | n + 1 => do
      let k ← keyframeUnpack buf off
      let rest ← readKeyframes buf (off + 16) n
      pure (k :: rest)

/-- `JPAKeyBlock.unpack` (jpac210.py lines 251-261). -/
def kfa1Unpack (buf : Buffer) (off : Nat) : Option KeyBlockState := do
  let size ← get_s32 buf (off + 4)
  let bd := pySlice (off + 8) (off + 8 + (size - 8).toNat) buf
  let kt ← get_u8 buf (off + 8)
  let kc ← get_u8 buf (off + 9)
  let unused ← get_u8 buf (off + 10)
  let lp ← get_bool buf (off + 11)
  let kfs ← readKeyframes buf (off + 12) kc
  pure ⟨kt, unused, lp, kfs, bd⟩

/-! ### The base-shape chunk (jpac210.py lines 292-498) -/

/-- The decoded state of `JPABaseShape`.  Float fields carry raw 32-bit
patterns; the ten `tex_*` fields are the flag-bit-24 conditionals and keep
their construction defaults (0.0 or 1.0, pattern 0x3F800000) when absent. -/
structure BaseShapeData where
  flags : Nat
  base_size_x : Nat
  base_size_y : Nat
  blend_mode_flags : Nat
  alpha_compare_flags : Nat
  alpha_reference_0 : Nat
  alpha_reference_1 : Nat
  z_mode_flags : Nat
  texture_flags : Nat
  texture_index : Nat
  color_flags : Nat
  color_animation_max_frame : Nat
  primary_color : Buffer
  environment_color : Buffer
  animation_random : Nat
  color_loop_offset_mask : Nat
  texture_index_loop_offset_mask : Nat
  tex_init_trans_x : Nat
  tex_init_trans_y : Nat
  tex_init_scale_x : Nat
  tex_init_scale_y : Nat
  tex_init_rot : Nat
  tex_inc_trans_x : Nat
  tex_inc_trans_y : Nat
  tex_inc_scale_x : Nat
  tex_inc_scale_y : Nat
  tex_inc_rot : Nat
  texture_index_anim_data : Buffer
  primary_color_data : List (Nat × Buffer)
  environment_color_data : List (Nat × Buffer)
  binary_data : Buffer
  extra_data : Buffer

/-- `JPAColorFrame.unpack` (jpac210.py lines 141-145): frame index (u16)
plus a raw 4-byte color. -/
def colorFrameUnpack (buf : Buffer) (off : Nat) : Option (Nat × Buffer) := do
  let f ← get_u16 buf off
  pure (f, pySlice (off + 2) (off + 6) buf)

/-- The color keyframe read loops of `JPABaseShape.unpack` (jpac210.py lines
412-427): `count` 6-byte records. -/
def readColorFrames (buf : Buffer) (off : Nat) :
    Nat → Option (List (Nat × Buffer))
  | 0 => some []
  | n + 1 => do
      let c ← colorFrameUnpack buf off
      let rest ← readColorFrames buf (off + 6) n
      pure (c :: rest)

/-- The unconditional prefix of `JPABaseShape`'s `auto_chunks` (jpac210.py
lines 378-384): flags at relative offset 8, then sizes, blend/alpha/z/
texture/color flag bytes, texture index, colors and loop masks, with the
`Offset` paddings exactly as in the source, ending at relative offset 52
(0x34). -/
def bsp1FixedLayout : List FKind :=
  [.u32k, .offk 4, .f32k, .f32k, .u16k, .u8k, .u8k, .u8k, .u8k, .u8k,
   .offk 1, .u8k, .u8k, .offk 2, .u16k, .bytes4k, .bytes4k, .u8k, .u8k,
   .u8k, .offk 3]

/-- Consecutive 4-byte float reads (the ten conditional texture-scroll
fields when flag bit 24 is set). -/
def readF32s (buf : Buffer) (off : Nat) : Nat → Option (List Nat)
  | 0 => some []
  | n + 1 => do
      let v ← get_f32 buf off
      let rest ← readF32s buf (off + 4) n
      pure (v :: rest)

/-- The construction-time defaults of the ten conditional fields: trans 0.0,
scale 1.0, rotation 0.0 for init and increment (jpac210.py lines 364-373);
`unpack` leaves them untouched when flag bit 24 is clear. -/
def bsp1ScrollDefaults : List Nat :=
  [0, 0, 0x3F800000, 0x3F800000, 0, 0, 0, 0x3F800000, 0x3F800000, 0]

/-- The header-embedded extra-data offsets and counts read by
`JPABaseShape.unpack` (jpac210.py lines 397-401): primary and environment
color data offsets (u16 at 0xC and 0xE), texture-index animation count (u8
at 0x1F), primary and environment color animation counts (u8 at 0x22 and
0x23). -/
def bsp1ReadHeaderCounts (buf : Buffer) (off : Nat) :
    Option (Nat × Nat × Nat × Nat × Nat) := do
  let pcdo ← get_u16 buf (off + 12)
  let ecdo ← get_u16 buf (off + 14)
  let tiac ← get_u8 buf (off + 31)
  let pcadc ← get_u8 buf (off + 34)
  let ecadc ← get_u8 buf (off + 35)
  pure (pcdo, ecdo, tiac, pcadc, ecadc)

/-- The three optional extra-data regions of `JPABaseShape.unpack`
(jpac210.py lines 402-427): texture-index animation bytes at the extra-data
offset (plus 0x28 when the scroll bit is set), then primary and environment
color keyframes at their header-declared offsets. -/
def bsp1ReadExtra (buf : Buffer) (off : Nat) (scroll : Bool)
    (tf cf : Nat) (counts : Nat × Nat × Nat × Nat × Nat) :
    Option (Buffer × List (Nat × Buffer) × List (Nat × Buffer)) := do
  let extraOff := off + 52 + (if scroll then 40 else 0)
  let tia ← if is_condition_met tf 0 then
      get_u8_array buf extraOff counts.2.2.1 else some []
  let pcd ← if is_condition_met cf 1 then
      readColorFrames buf (off + counts.1) counts.2.2.2.1 else some []
  let ecd ← if is_condition_met cf 3 then
      readColorFrames buf (off + counts.2.1) counts.2.2.2.2 else some []
  pure (tia, pcd, ecd)

/-- `JPABaseShape.unpack` (jpac210.py lines 387-427), in source order: the
auto-chunk pass from relative offset 8 (the ten flag-bit-24 conditionals at
the end are evaluated against the freshly read flag word and keep their
defaults when absent), the size field, the extra-data and body slices, the
header-embedded offsets and counts, then the three optional extra-data
regions. -/
def bsp1Unpack (buf : Buffer) (off : Nat) : Option BaseShapeData := do
  let fixedVals ← readFields buf (off + 8) bsp1FixedLayout
  match fixedVals with
  | [.nv flags, .unit, .nv bsx, .nv bsy, .nv bmf, .nv acf, .nv ar0, .nv ar1,
     .nv zmf, .nv tf, .unit, .nv ti, .nv cf, .unit, .nv camf, .bv pc, .bv ec,
     .nv ar, .nv clom, .nv tilom, .unit] => do
    let scroll := is_condition_met flags 24
    let scrollVals ← if scroll then readF32s buf (off + 52) 10
                     else some bsp1ScrollDefaults
    match scrollVals with
    | [titx, tity, tisx, tisy, tir, tctx, tcty, tcsx, tcsy, tcr] => do
      let size ← get_s32 buf (off + 4)
      let szN := (size - 8).toNat
      let counts ← bsp1ReadHeaderCounts buf off
      let extraRegions ← bsp1ReadExtra buf off scroll tf cf counts
      pure { flags := flags, base_size_x := bsx, base_size_y := bsy,
             blend_mode_flags := bmf, alpha_compare_flags := acf,
             alpha_reference_0 := ar0, alpha_reference_1 := ar1,
             z_mode_flags := zmf, texture_flags := tf, texture_index := ti,
             color_flags := cf, color_animation_max_frame := camf,
             primary_color := pc, environment_color := ec,
             animation_random := ar, color_loop_offset_mask := clom,
             texture_index_loop_offset_mask := tilom,
             tex_init_trans_x := titx, tex_init_trans_y := tity,
             tex_init_scale_x := tisx, tex_init_scale_y := tisy,
             tex_init_rot := tir, tex_inc_trans_x := tctx,
             tex_inc_trans_y := tcty, tex_inc_scale_x := tcsx,
             tex_inc_scale_y := tcsy, tex_inc_rot := tcr,
             texture_index_anim_data := extraRegions.1,
             primary_color_data := extraRegions.2.1,
             environment_color_data := extraRegions.2.2,
             binary_data := pySlice (off + 8) (off + 8 + szN) buf,
             extra_data := pySlice (off + 52) (off + szN + 8) buf }
    | _ => none
  | _ => none

/-- Python bytearray slice assignment `buf[pos:pos+len(repl)] = repl` for an
in-range window. -/
def writeSlice (buf : Buffer) (pos : Nat) (repl : Buffer) : Buffer :=
  buf.take pos ++ repl ++ buf.drop (pos + repl.length)

/-- The `auto_chunks` list of `JPABaseShape` (jpac210.py lines 378-384),
with the ten texture-scroll conditionals governed by flags bit 24. -/
def bsp1AutoChunks (d : BaseShapeData) : List TChunk :=
  [.u32c d.flags, .offc 4, .f32c d.base_size_x, .f32c d.base_size_y,
   .u16c d.blend_mode_flags, .u8c d.alpha_compare_flags,
   .u8c d.alpha_reference_0, .u8c d.alpha_reference_1,
   .u8c d.z_mode_flags, .u8c d.texture_flags, .offc 1, .u8c d.texture_index,
   .u8c d.color_flags, .offc 2, .u16c d.color_animation_max_frame,
   .u32bytes d.primary_color, .u32bytes d.environment_color,
   .u8c d.animation_random, .u8c d.color_loop_offset_mask,
   .u8c d.texture_index_loop_offset_mask, .offc 3,
   .flagCond 24 (.f32c d.tex_init_trans_x),
   .flagCond 24 (.f32c d.tex_init_trans_y),
   .flagCond 24 (.f32c d.tex_init_scale_x),
   .flagCond 24 (.f32c d.tex_init_scale_y),
   .flagCond 24 (.f32c d.tex_init_rot),
   .flagCond 24 (.f32c d.tex_inc_trans_x),
   .flagCond 24 (.f32c d.tex_inc_trans_y),
   .flagCond 24 (.f32c d.tex_inc_scale_x),
   .flagCond 24 (.f32c d.tex_inc_scale_y),
   .flagCond 24 (.f32c d.tex_inc_rot)]

/-- `JPAColorFrame` packing: frame (u16) then the raw color bytes. -/
def colorFramePack (c : Nat × Buffer) : Buffer :=
  pack_u16 c.1 ++ c.2

/-- Modelled from the spec: `pyaurum.pack_u8_array`. -/
def pack_u8_array (xs : Buffer) : Buffer :=
  (xs.map pack_u8).flatten

/-- `JPABaseShape.pack` (jpac210.py lines 445-477): pack the auto chunks,
then build the extra-data region (texture index array, primary color
keyframes, environment color keyframes, each independently 4-byte aligned),
writing each region's offset and count back into the header bytes
(offsets at body bytes 0x4-0x6 and 0x6-0x8, counts at 0x17, 0x1A and 0x1B),
then pad the fresh body and prefix tag and size. -/
def bsp1Body (d : BaseShapeData) : Buffer :=
  let binary0 := autoPack d.flags (bsp1AutoChunks d)
  let extraDataOffset := 52 + (if is_condition_met d.flags 24 then 40 else 0)
  let st1 :=
    if is_condition_met d.texture_flags 0 then
      let e := pack_u8_array d.texture_index_anim_data
      let e := e ++ align4pad e
      (writeSlice binary0 23 (pack_u8 d.texture_index_anim_data.length), e)
    else (binary0, ([] : Buffer))
  let st2 :=
    if is_condition_met d.color_flags 1 then
      let offs := st1.2.length + extraDataOffset
      let e := st1.2 ++ (d.primary_color_data.map colorFramePack).flatten
      let e := e ++ align4pad e
      let b := writeSlice st1.1 4 (pack_u16 offs)
      let b := writeSlice b 26 (pack_u8 d.primary_color_data.length)
      (b, e)
    else st1
  let st3 :=
    if is_condition_met d.color_flags 3 then
      let offs := st2.2.length + extraDataOffset
      let e := st2.2 ++ (d.environment_color_data.map colorFramePack).flatten
      let e := e ++ align4pad e
      let b := writeSlice st2.1 6 (pack_u16 offs)
      let b := writeSlice b 27 (pack_u8 d.environment_color_data.length)
      (b, e)
    else st2
  st3.1 ++ st3.2

/-- The size/tag framing of `JPABaseShape.pack` (jpac210.py lines 475-477):
pad the fresh body to a 4-byte boundary, prefix tag and size. -/
def bsp1Pack (d : BaseShapeData) : Buffer :=
  let out := bsp1Body d ++ align4pad (bsp1Body d)
  [66, 83, 80, 49] ++ pack_s32 (8 + out.length) ++ out

/-- C5: every chunk produced by encode — standard fixed-layout,
keyframe-block, and base-shape — has total encoded length equal to 8
(tag plus size field) plus the length of the body after zero-padding to a
4-byte boundary, that total is a multiple of 4, and the 4-byte size field
at bytes 4..8 holds exactly that total. -/
theorem chunk_pack_alignment_invariant :
    (∀ (magic : Buffer) (w : Nat) (cs : List TChunk), magic.length = 4 →
      (standardPack magic w cs).length
          = 8 + (autoPack w cs ++ align4pad (autoPack w cs)).length ∧
      (standardPack magic w cs).length % 4 = 0 ∧
      pySlice 4 8 (standardPack magic w cs)
          = pack_s32 (8 + (autoPack w cs ++ align4pad (autoPack w cs)).length)) ∧
    (∀ st : KeyBlockState,
      (kfa1Pack st).length
          = 8 + (kfa1Body st ++ align4pad (kfa1Body st)).length ∧
      (kfa1Pack st).length % 4 = 0 ∧
      pySlice 4 8 (kfa1Pack st)
          = pack_s32 (8 + (kfa1Body st ++ align4pad (kfa1Body st)).length)) ∧
    (∀ d : BaseShapeData,
      (bsp1Pack d).length
          = 8 + (bsp1Body d ++ align4pad (bsp1Body d)).length ∧
      (bsp1Pack d).length % 4 = 0 ∧
      pySlice 4 8 (bsp1Pack d)
          = pack_s32 (8 + (bsp1Body d ++ align4pad (bsp1Body d)).length)) := by
  refine ⟨?_, ?_, ?_⟩
  · intro magic w cs hmagic
    have h := sized_chunk_aligned magic (autoPack w cs) hmagic
    simpa [standardPack] using h
  · intro st
    have h := sized_chunk_aligned [75, 70, 65, 49] (kfa1Body st) rfl
    simpa [kfa1Pack] using h
  · intro d
    have h := sized_chunk_aligned [66, 83, 80, 49] (bsp1Body d) rfl
    simpa [bsp1Pack] using h

/-- C5, witness: the alignment invariant at a concrete keyframe block with
one keyframe (body 4 + 16 bytes, total 28, size field 28). -/
theorem chunk_pack_alignment_invariant_witness :
    (kfa1Pack ⟨0, 0, false, [(1, 2, 3, 4)], []⟩).length % 4 = 0 :=
  (chunk_pack_alignment_invariant.2.1 ⟨0, 0, false, [(1, 2, 3, 4)], []⟩).2.1

/-! ### The Resource (jpac210.py lines 621-795) -/

inductive DecodeErr where
  | truncated
  | notAscii (tagBytes : Buffer)
  | unknownSection (magic : Buffer)
  | keyBlockCountMismatch (expected found : Nat)
  | fieldBlockCountMismatch (expected found : Nat)

/-- Lift a primitive-codec read into the decoder; a failed read is the
`TruncatedInput` hard fault. -/
def orErr {α : Type} (o : Option α) : Except DecodeErr α :=
  match o with
  | some a => .ok a
  | none => .error .truncated

/-- The in-memory `JPAResource` after `unpack` (jpac210.py lines 621-635). -/
structure Resource where
  index : Int
  dynamics_block : Option StdChunkData
  field_blocks : List StdChunkData
  key_blocks : List KeyBlockState
  base_shape : Option BaseShapeData
  extra_shape : Option StdChunkData
  child_shape : Option StdChunkData
  ex_tex_shape : Option StdChunkData
  texture_ids : List Int
  texture_names : List String
  total_size : Nat

/-- The freshly cleared resource at the top of `JPAResource.unpack`
(jpac210.py lines 638-649): everything empty, total size 8 for the header. -/
def initResource (idx : Int) : Resource :=
  ⟨idx, none, [], [], none, none, none, none, [], [], 8⟩

/-- The texture-ID read loop of the TDB1 branch (jpac210.py lines 693-695):
`num_textures` signed 16-bit reads from the extracted block at
`0x8 + 2 * j`. -/
def readTextureIds (block : Buffer) (j : Nat) : Nat → Option (List Int)
  | 0 => some []
  | n + 1 => do
      let v ← get_s16 block (8 + 2 * j)
      let rest ← readTextureIds block (j + 1) n
      pure (v :: rest)

/-- The section loop of `JPAResource.unpack` (jpac210.py lines 656-702):
read the 4-byte tag (an ASCII decode, failing on bytes ≥ 128), the signed
size, extract the block, dispatch on the tag (BEM1, FLD1, KFA1, BSP1, ESP1,
SSP1, ETX1, TDB1), raise on any other tag, then advance offset and total
size by the declared size.  Negative declared sizes are outside the
modelled range (`Int.toNat`). -/
def sectionLoop (buf : Buffer) (numTextures : Nat) :
    Nat → Nat → Resource → Except DecodeErr Resource
  | 0, _, r => .ok r
  | n + 1, off, r => do
    let magicBytes := pySlice off (off + 4) buf
    if magicBytes.any (fun b => 128 ≤ b) then .error (.notAscii magicBytes)
    else do
      let size ← orErr (get_s32 buf (off + 4))
      let szN := size.toNat
      let block := pySlice off (off + szN) buf
      let next := fun (r2 : Resource) =>
        sectionLoop buf numTextures n (off + szN)
          { r2 with total_size := r2.total_size + szN }
      if magicBytes = [66, 69, 77, 49] then do
        let c ← orErr (stdChunkUnpack bem1Layout buf off)
        next { r with dynamics_block := some c }
      else if magicBytes = [70, 76, 68, 49] then do
        let c ← orErr (stdChunkUnpack fld1Layout buf off)
        next { r with field_blocks := r.field_blocks ++ [c] }
      else if magicBytes = [75, 70, 65, 49] then do
        let c ← orErr (kfa1Unpack buf off)
        next { r with key_blocks := r.key_blocks ++ [c] }
      else if magicBytes = [66, 83, 80, 49] then do
        let c ← orErr (bsp1Unpack buf off)
        next { r with base_shape := some c }
      else if magicBytes = [69, 83, 80, 49] then do
        let c ← orErr (stdChunkUnpack esp1Layout buf off)
        next { r with extra_shape := some c }
      else if magicBytes = [83, 83, 80, 49] then do
        let c ← orErr (stdChunkUnpack ssp1Layout buf off)
        next { r with child_shape := some c }
      else if magicBytes = [69, 84, 88, 49] then do
        let c ← orErr (stdChunkUnpack etx1Layout buf off)
        next { r with ex_tex_shape := some c }
      else if magicBytes = [84, 68, 66, 49] then do
        let ids ← orErr (readTextureIds block 0 numTextures)
        next { r with texture_ids := r.texture_ids ++ ids }
      else
        .error (.unknownSection magicBytes)

/-- `JPAResource.unpack` (jpac210.py lines 637-707): parse the 8-byte header
(`>2h3B`: index, section count, field-block count, key-block count, texture
count), run the section loop, then check the declared key-block and
field-block counts (in that order) against what was actually parsed. -/
def resourceUnpack (buf : Buffer) (off : Nat) : Except DecodeErr Resource := do
  let idx ← orErr (get_s16 buf off)
  let numSections ← orErr (get_s16 buf (off + 2))
  let numFieldBlocks ← orErr (get_u8 buf (off + 4))
  let numKeyBlocks ← orErr (get_u8 buf (off + 5))
  let numTextures ← orErr (get_u8 buf (off + 6))
  let r ← sectionLoop buf numTextures numSections.toNat (off + 8)
    (initResource idx)
  if numKeyBlocks ≠ r.key_blocks.length then
    .error (.keyBlockCountMismatch numKeyBlocks r.key_blocks.length)
  else if numFieldBlocks ≠ r.field_blocks.length then
    .error (.fieldBlockCountMismatch numFieldBlocks r.field_blocks.length)
  else
    .ok r

/-- `JPAResource.pack` (jpac210.py lines 745-795): header (`>2h4B` with a
section-count placeholder), each present chunk in the fixed order (dynamics,
fields, keyframes, base shape, extra shape, child shape, indirect shape),
the recomputed section count written back at offset 2, then the always
emitted TDB1 texture-ID table, 4-byte aligned. -/
def resourcePack (r : Resource) : Buffer :=
  let header := pack_s16 r.index ++ pack_s16 0
    ++ [r.field_blocks.length % 256, r.key_blocks.length % 256,
        r.texture_ids.length % 256, 0]
  let chunks :=
    (match r.dynamics_block with
     | some c => stdChunkPack [66, 69, 77, 49] bem1Layout c
     | none => [])
    ++ (r.field_blocks.map (stdChunkPack [70, 76, 68, 49] fld1Layout)).flatten
    ++ (r.key_blocks.map kfa1Pack).flatten
    ++ (match r.base_shape with
        | some c => bsp1Pack c
        | none => [])
    ++ (match r.extra_shape with
        | some c => stdChunkPack [69, 83, 80, 49] esp1Layout c
        | none => [])
    ++ (match r.child_shape with
        | some c => stdChunkPack [83, 83, 80, 49] ssp1Layout c
        | none => [])
    ++ (match r.ex_tex_shape with
        | some c => stdChunkPack [69, 84, 88, 49] etx1Layout c
        | none => [])
  let numSections := 1
    + (if r.dynamics_block.isSome then 1 else 0)
    + r.field_blocks.length + r.key_blocks.length
    + (if r.base_shape.isSome then 1 else 0)
    + (if r.extra_shape.isSome then 1 else 0)
    + (if r.child_shape.isSome then 1 else 0)
    + (if r.ex_tex_shape.isSome then 1 else 0)
  let outBuf := writeSlice (header ++ chunks) 2 (pack_s16 numSections)
  let tdb0 := (r.texture_ids.map pack_s16).flatten
  let tdb1 := tdb0 ++ align4pad tdb0
  outBuf ++ ([84, 68, 66, 49] ++ pack_s32 (tdb1.length + 8) ++ tdb1)

/-! ### Claim C1: the Resource encode/decode round trip -/

/-- The resource decoded from an 8-byte all-zero buffer: a zero-section
stream, successfully decoded. -/
def zeroResource : Resource := initResource 0

/-- C1, counterexample: an 8-byte all-zero buffer decodes successfully (zero
sections, all counts zero), but re-encoding produces 16 bytes that are NOT
the input followed by zero padding: byte 3 becomes 1 (the recomputed section
count — `pack` always counts the TDB1 table) and bytes 8 onward are a TDB1
section, not zero padding. -/
theorem resource_roundtrip_counterexample :
    resourceUnpack (List.replicate 8 0) 0 = .ok zeroResource ∧
    resourcePack zeroResource
      = [0, 0, 0, 1, 0, 0, 0, 0, 84, 68, 66, 49, 0, 0, 0, 8] ∧
    pySlice 0 8 (resourcePack zeroResource) ≠ List.replicate 8 0 ∧
    pySlice 8 16 (resourcePack zeroResource) ≠ List.replicate 8 0 := by
  refine ⟨by rfl, by rfl, by decide, by decide⟩

/-! ### Claims C7 and C8: unknown tags and section count mismatches -/

/-- The eight section tags `JPAResource.unpack` recognizes (jpac210.py lines
663-695): BEM1, FLD1, KFA1, BSP1, ESP1, SSP1, ETX1, TDB1. -/
def recognizedTags : List Buffer :=
  [[66, 69, 77, 49], [70, 76, 68, 49], [75, 70, 65, 49], [66, 83, 80, 49],
   [69, 83, 80, 49], [83, 83, 80, 49], [69, 84, 88, 49], [84, 68, 66, 49]]

theorem get_u8_of_lt (buf : Buffer) (off : Nat) (h : off < buf.length) :
    get_u8 buf off = some buf[off] := by
  simp [get_u8, List.getElem?_eq_getElem h]

theorem get_u16_isSome (buf : Buffer) (off : Nat) (h : off + 2 ≤ buf.length) :
    ∃ v, get_u16 buf off = some v := by
  refine ⟨buf[off] * 256 + buf[off + 1], ?_⟩
  · simp [get_u16, get_u8_of_lt buf off (by omega),
      get_u8_of_lt buf (off + 1) (by omega)]

theorem get_u32_isSome (buf : Buffer) (off : Nat) (h : off + 4 ≤ buf.length) :
    ∃ v, get_u32 buf off = some v := by
  obtain ⟨a, ha⟩ := get_u16_isSome buf off (by omega)
  obtain ⟨b, hb⟩ := get_u16_isSome buf (off + 2) (by omega)
  exact ⟨a * 65536 + b, by simp [get_u32, ha, hb]⟩

theorem get_s32_isSome (buf : Buffer) (off : Nat) (h : off + 4 ≤ buf.length) :
    ∃ v, get_s32 buf off = some v := by
  obtain ⟨a, ha⟩ := get_u32_isSome buf off h
  exact ⟨toSigned32 a, by simp [get_s32, ha]⟩

theorem except_bind_ok {ε α β : Type} (a : α) (f : α → Except ε β) :
    (Except.ok a : Except ε α) >>= f = f a := rfl

theorem except_bind_error {ε α β : Type} (e : ε) (f : α → Except ε β) :
    (Except.error e : Except ε α) >>= f = Except.error e := rfl

/-- Helper for C7: the section loop raises the unknown-section fault as soon
as the tag at the current scan position is readable ASCII, the size field is
readable, and the tag is not one of the eight recognized tags. -/
theorem sectionLoop_unknown_tag (buf : Buffer) (t n off : Nat) (r : Resource)
    (hascii : ∀ b ∈ pySlice off (off + 4) buf, b < 128)
    (htag : pySlice off (off + 4) buf ∉ recognizedTags)
    (hsize : off + 8 ≤ buf.length) :
    sectionLoop buf t (n + 1) off r
      = .error (.unknownSection (pySlice off (off + 4) buf)) := by
  have hany : (pySlice off (off + 4) buf).any (fun b => decide (128 ≤ b))
      = false := by
    rw [List.any_eq_false]
    intro b hb
    simpa using Nat.not_le_of_lt (hascii b hb)
  obtain ⟨sz, hsz⟩ := get_s32_isSome buf (off + 4) (by omega)
  have ht : ∀ tag ∈ recognizedTags, pySlice off (off + 4) buf ≠ tag :=
    fun tag htg heq => htag (heq ▸ htg)
  have h1 := ht [66, 69, 77, 49] (by simp [recognizedTags])
  have h2 := ht [70, 76, 68, 49] (by simp [recognizedTags])
  have h3 := ht [75, 70, 65, 49] (by simp [recognizedTags])
  have h4 := ht [66, 83, 80, 49] (by simp [recognizedTags])
  have h5 := ht [69, 83, 80, 49] (by simp [recognizedTags])
  have h6 := ht [83, 83, 80, 49] (by simp [recognizedTags])
  have h7 := ht [69, 84, 88, 49] (by simp [recognizedTags])
  have h8 := ht [84, 68, 66, 49] (by simp [recognizedTags])
  simp [sectionLoop, hany, hsz, orErr, h1, h2, h3, h4, h5, h6, h7, h8,
    except_bind_ok, except_bind_error]

/-- C7: a section stream containing a 4-byte tag outside the recognized set
{BEM1, FLD1, KFA1, BSP1, ESP1, SSP1, ETX1, TDB1} aborts the decode with the
unknown-section fault.  First conjunct: at any scan state of the section
loop.  Second conjunct: a Resource whose header parses, declares at least
one section, and whose first section tag is unrecognized (readable ASCII,
readable size field) makes `JPAResource.unpack` fail with that fault —
no Resource value is produced. -/
theorem resource_unknown_tag_aborts (buf : Buffer) :
    (∀ (t n off : Nat) (r : Resource),
      (∀ b ∈ pySlice off (off + 4) buf, b < 128) →
      pySlice off (off + 4) buf ∉ recognizedTags →
      off + 8 ≤ buf.length →
      sectionLoop buf t (n + 1) off r
        = .error (.unknownSection (pySlice off (off + 4) buf))) ∧
    (∀ (off : Nat) (idx ns : Int) (nf nk nt : Nat),
      get_s16 buf off = some idx →
      get_s16 buf (off + 2) = some ns →
      get_u8 buf (off + 4) = some nf →
      get_u8 buf (off + 5) = some nk →
      get_u8 buf (off + 6) = some nt →
      0 < ns.toNat →
      (∀ b ∈ pySlice (off + 8) (off + 12) buf, b < 128) →
      pySlice (off + 8) (off + 12) buf ∉ recognizedTags →
      off + 16 ≤ buf.length →
      resourceUnpack buf off
        = .error (.unknownSection (pySlice (off + 8) (off + 12) buf))) := by
  constructor
  · intro t n off r hascii htag hsize
    exact sectionLoop_unknown_tag buf t n off r hascii htag hsize
  · intro off idx ns nf nk nt h1 h2 h3 h4 h5 hns hascii htag hlen
    obtain ⟨m, hm⟩ := Nat.exists_eq_add_of_lt hns
    have hm2 : ns.toNat = m + 1 := by omega
    have hloop := sectionLoop_unknown_tag buf nt m (off + 8)
      (initResource idx) hascii htag (by omega)
    have harith : off + 8 + 4 = off + 12 := by omega
    rw [harith] at hloop
    simp [resourceUnpack, h1, h2, h3, h4, h5, orErr, hm2, hloop,
      except_bind_ok, except_bind_error]

/-- C7, witness: a resource header declaring one section followed by the
tag "ZZZZ" with a readable size field. -/
theorem resource_unknown_tag_aborts_witness :
    resourceUnpack
      [0, 0, 0, 1, 0, 0, 0, 0, 90, 90, 90, 90, 0, 0, 0, 12, 0, 0, 0, 0] 0
      = .error (.unknownSection
          (pySlice 8 12
            [0, 0, 0, 1, 0, 0, 0, 0, 90, 90, 90, 90, 0, 0, 0, 12, 0, 0, 0, 0])) :=
  (resource_unknown_tag_aborts _).2 0 0 1 0 0 0 rfl rfl rfl rfl rfl
    (by decide) (by decide) (by decide) (by decide)

/-- C8: when the section loop completes, a mismatch between the
header-declared key-block count and the number of KFA1 sections actually
parsed, or (checked second) between the declared field-block count and the
number of FLD1 sections actually parsed, makes `JPAResource.unpack` fail
with the corresponding count-mismatch fault. -/
theorem resource_count_mismatch (buf : Buffer) (off : Nat) (idx ns : Int)
    (nf nk nt : Nat) {rst : Resource}
    (h1 : get_s16 buf off = some idx)
    (h2 : get_s16 buf (off + 2) = some ns)
    (h3 : get_u8 buf (off + 4) = some nf)
    (h4 : get_u8 buf (off + 5) = some nk)
    (h5 : get_u8 buf (off + 6) = some nt)
    (hloop : sectionLoop buf nt ns.toNat (off + 8) (initResource idx)
      = .ok rst) :
    (nk ≠ rst.key_blocks.length →
      resourceUnpack buf off
        = .error (.keyBlockCountMismatch nk rst.key_blocks.length)) ∧
    (nk = rst.key_blocks.length → nf ≠ rst.field_blocks.length →
      resourceUnpack buf off
        = .error (.fieldBlockCountMismatch nf rst.field_blocks.length)) := by
  constructor
  · intro hne
    simp [resourceUnpack, h1, h2, h3, h4, h5, orErr, hloop, hne,
      except_bind_ok, except_bind_error]
  · intro heq hne
    simp [resourceUnpack, h1, h2, h3, h4, h5, orErr, hloop, heq, hne,
      except_bind_ok, except_bind_error]

/-- C8, witness: a header declaring 2 field blocks over a stream containing
exactly one FLD1 section (and one section overall) fails with the
field-block count mismatch, expected 2 found 1. -/
def c8buf : Buffer :=
  [0, 0, 0, 1, 2, 0, 0, 0, 70, 76, 68, 49, 0, 0, 0, 68]
    ++ List.replicate 60 0

theorem resource_count_mismatch_witness :
    resourceUnpack c8buf 0 = .error (.fieldBlockCountMismatch 2 1) :=
  (resource_count_mismatch c8buf 0 0 1 2 0 0 rfl rfl rfl rfl rfl rfl).2
    rfl (by decide)

/-! ### Claim C1, amended: round trip on canonical encodings

`JPAResource.pack` canonicalizes, so byte identity with arbitrary decodable
input fails (see the counterexample); what does hold is that decoding an
encoding and re-encoding reproduces the encoding exactly.  This is proved
for chunk-free resources (header plus TDB1 texture table, the part of the
format where `pack` recomputes everything). -/

/-- A chunk-free in-memory resource: only the index and the texture-ID
table. -/
def tdbResource (idx : Int) (ids : List Int) : Resource :=
  ⟨idx, none, [], [], none, none, none, none, ids, [], 0⟩

/-- The TDB1 body `pack` produces: the 16-bit ids, zero-padded to a 4-byte
boundary. -/
def tdbBody (ids : List Int) : Buffer :=
  (ids.map pack_s16).flatten ++ align4pad ((ids.map pack_s16).flatten)

/-- The full encoding of a chunk-free resource. -/
def canonBuf (idx : Int) (ids : List Int) : Buffer :=
  (pack_s16 idx ++ ([0, 1] ++ [0, 0, ids.length, 0]))
    ++ ([84, 68, 66, 49]
        ++ (pack_s32 (((tdbBody ids).length + 8 : Nat) : Int) ++ tdbBody ids))

theorem toSigned16_emod (i : Int) (h1 : -32768 ≤ i) (h2 : i < 32768) :
    toSigned16 (i % 65536).toNat = i := by
  unfold toSigned16
  split_ifs <;> omega

theorem get_u8_at_append (pre rest : Buffer) (k : Nat) :
    get_u8 (pre ++ rest) (pre.length + k) = get_u8 rest k := by
  simp [get_u8, List.getElem?_append_right (Nat.le_add_right pre.length k)]

theorem get_u16_at_append (pre rest : Buffer) (k : Nat) :
    get_u16 (pre ++ rest) (pre.length + k) = get_u16 rest k := by
  unfold get_u16
  rw [get_u8_at_append, show pre.length + k + 1 = pre.length + (k + 1) by omega,
    get_u8_at_append]

theorem get_u32_at_append (pre rest : Buffer) (k : Nat) :
    get_u32 (pre ++ rest) (pre.length + k) = get_u32 rest k := by
  unfold get_u32
  rw [get_u16_at_append, show pre.length + k + 2 = pre.length + (k + 2) by omega,
    get_u16_at_append]

theorem get_s16_at_append (pre rest : Buffer) (k : Nat) :
    get_s16 (pre ++ rest) (pre.length + k) = get_s16 rest k := by
  unfold get_s16
  rw [get_u16_at_append]

theorem get_s32_at_append (pre rest : Buffer) (k : Nat) :
    get_s32 (pre ++ rest) (pre.length + k) = get_s32 rest k := by
  unfold get_s32
  rw [get_u32_at_append]

theorem pySlice_at_append (pre rest : Buffer) (k : Nat) :
    pySlice pre.length (pre.length + k) (pre ++ rest) = rest.take k := by
  simp [pySlice, List.drop_left']

theorem get_u8_at (pre rest : Buffer) (k n : Nat) (h : pre.length + k = n) :
    get_u8 (pre ++ rest) n = get_u8 rest k := by
  subst h
  exact get_u8_at_append pre rest k

theorem get_s16_at (pre rest : Buffer) (k n : Nat) (h : pre.length + k = n) :
    get_s16 (pre ++ rest) n = get_s16 rest k := by
  subst h
  exact get_s16_at_append pre rest k

theorem get_s32_at (pre rest : Buffer) (k n : Nat) (h : pre.length + k = n) :
    get_s32 (pre ++ rest) n = get_s32 rest k := by
  subst h
  exact get_s32_at_append pre rest k

theorem pySlice_at (pre rest : Buffer) (a b k : Nat) (ha : pre.length = a)
    (hb : a + k = b) : pySlice a b (pre ++ rest) = rest.take k := by
  subst ha
  subst hb
  exact pySlice_at_append pre rest k

/-- Reading back a packed signed 16-bit value. -/
theorem get_s16_pack_here (i : Int) (rest : Buffer)
    (h1 : -32768 ≤ i) (h2 : i < 32768) :
    get_s16 (pack_s16 i ++ rest) 0 = some i := by
  have hn : (i % 65536).toNat < 65536 := by omega
  have hu : get_u16 (pack_s16 i ++ rest) 0 = some (i % 65536).toNat := by
    simp only [pack_s16, pack_u16, get_u16, get_u8, List.cons_append,
      List.getElem?_cons_zero, List.getElem?_cons_succ, Option.bind_eq_bind,
      Option.some_bind]
    exact congrArg some (by omega)
  unfold get_s16
  rw [hu]
  exact congrArg some (toSigned16_emod i h1 h2)

/-- Reading back a packed 32-bit size value below 2^31. -/
theorem get_s32_pack_nat (n : Nat) (rest : Buffer) (h : n < 2147483648) :
    get_s32 (pack_s32 (n : Int) ++ rest) 0 = some (n : Int) := by
  have hemod : ((n : Int) % 4294967296).toNat = n := by omega
  have hu : get_u32 (pack_s32 (n : Int) ++ rest) 0 = some n := by
    simp only [pack_s32, pack_u32, hemod, get_u32, get_u16, get_u8,
      List.cons_append, List.getElem?_cons_zero, List.getElem?_cons_succ,
      Option.bind_eq_bind, Option.some_bind]
    exact congrArg some (by omega)
  unfold get_s32
  rw [hu]
  exact congrArg some (by unfold toSigned32; rw [if_pos (by omega)])

theorem flatten_pack_s16_length (ids : List Int) :
    ((ids.map pack_s16).flatten).length = 2 * ids.length := by
  induction ids with
  | nil => rfl
  | cons i is ih =>
    simp only [List.map_cons, List.flatten_cons, List.length_append,
      List.length_cons, ih, pack_s16, pack_u16, List.length_nil]
    omega

/-- The TDB1 read loop recovers the ids that were packed. -/
theorem readTextureIds_pack (ids : List Int) :
    ∀ (pre tail : Buffer) (j : Nat), pre.length = 8 + 2 * j →
    (∀ i ∈ ids, -32768 ≤ i ∧ i < 32768) →
    readTextureIds (pre ++ ((ids.map pack_s16).flatten ++ tail)) j ids.length
      = some ids := by
  induction ids with
  | nil =>
    intro pre tail j hpre hids
    simp [readTextureIds]
  | cons i is ih =>
    intro pre tail j hpre hids
    have hi := hids i (by simp)
    have hget : get_s16 (pre ++ (((i :: is).map pack_s16).flatten ++ tail))
        (8 + 2 * j) = some i := by
      rw [← hpre, show pre.length = pre.length + 0 by omega, get_s16_at_append]
      simp only [List.map_cons, List.flatten_cons, List.append_assoc]
      exact get_s16_pack_here i _ hi.1 hi.2
    have hrec : readTextureIds (pre ++ (((i :: is).map pack_s16).flatten ++ tail))
        (j + 1) is.length = some is := by
      have hres : pre ++ (((i :: is).map pack_s16).flatten ++ tail)
          = (pre ++ pack_s16 i) ++ ((is.map pack_s16).flatten ++ tail) := by
        simp [List.append_assoc]
      rw [hres]
      exact ih (pre ++ pack_s16 i) tail (j + 1)
        (by simp [hpre, pack_s16, pack_u16]; omega)
        (fun x hx => hids x (by simp [hx]))
    simp only [readTextureIds, List.length_cons, hget, hrec,
      Option.bind_eq_bind, Option.some_bind]
    rfl

/-- The encoding of a chunk-free resource, computed. -/
theorem resourcePack_tdbResource (idx : Int) (ids : List Int)
    (hlen : ids.length < 256) :
    resourcePack (tdbResource idx ids) = canonBuf idx ids := by
  have hmod : ids.length % 256 = ids.length := Nat.mod_eq_of_lt hlen
  have hp1 : pack_s16 ((1 : Nat) : Int) = [0, 1] := rfl
  have h2 : (pack_s16 idx).length = 2 := rfl
  have h4 : (pack_s16 idx ++ pack_s16 0).length = 4 := rfl
  unfold resourcePack tdbResource writeSlice canonBuf tdbBody
  simp only [hmod, Option.isSome_none, List.map_nil, List.flatten_nil,
    List.length_nil, List.append_nil, List.nil_append, Bool.false_eq_true,
    if_false, Nat.add_zero, Nat.zero_mod, hp1]
  have hdroparg : 2 + ([0, 1] : Buffer).length = 4 := rfl
  rw [List.append_assoc (pack_s16 idx), List.take_left' h2, hdroparg,
    ← List.append_assoc (pack_s16 idx) (pack_s16 0), List.drop_left' h4]
  simp [List.append_assoc, Nat.cast_add]

/-- Decoding the encoding of a chunk-free resource. -/
theorem resourceUnpack_canonBuf (idx : Int) (ids : List Int)
    (h1 : -32768 ≤ idx) (h2 : idx < 32768)
    (hids : ∀ i ∈ ids, -32768 ≤ i ∧ i < 32768)
    (hlen : ids.length < 256) :
    resourceUnpack (canonBuf idx ids) 0
      = .ok ⟨idx, none, [], [], none, none, none, none, ids, [],
          8 + ((tdbBody ids).length + 8)⟩ := by
  have hbodylen : (tdbBody ids).length = 2 * ids.length
      + (4 - 2 * ids.length % 4) % 4 := by
    rw [tdbBody, List.length_append, flatten_pack_s16_length, align4pad,
      List.length_replicate, flatten_pack_s16_length]
  have hsmall : (tdbBody ids).length + 8 < 2147483648 := by omega
  have hsplitH : canonBuf idx ids
      = (pack_s16 idx ++ ([0, 1] ++ [0, 0, ids.length, 0]))
        ++ ([84, 68, 66, 49]
            ++ (pack_s32 (((tdbBody ids).length + 8 : Nat) : Int)
                ++ tdbBody ids)) := rfl
  have hsplit1 : canonBuf idx ids
      = pack_s16 idx ++ ([0, 1]
        ++ ([0, 0, ids.length, 0]
          ++ ([84, 68, 66, 49]
              ++ (pack_s32 (((tdbBody ids).length + 8 : Nat) : Int)
                  ++ tdbBody ids)))) := by
    rw [hsplitH]
    simp [List.append_assoc]
  have hsplit2 : canonBuf idx ids
      = (pack_s16 idx ++ [0, 1])
        ++ ([0, 0, ids.length, 0]
          ++ ([84, 68, 66, 49]
              ++ (pack_s32 (((tdbBody ids).length + 8 : Nat) : Int)
                  ++ tdbBody ids))) := by
    rw [hsplitH]
    simp [List.append_assoc]
  have hsplit12 : canonBuf idx ids
      = ((pack_s16 idx ++ ([0, 1] ++ [0, 0, ids.length, 0]))
          ++ [84, 68, 66, 49])
        ++ (pack_s32 (((tdbBody ids).length + 8 : Nat) : Int)
            ++ tdbBody ids) := by
    rw [hsplitH]
    simp [List.append_assoc]
  -- header reads
  have hridx : get_s16 (canonBuf idx ids) 0 = some idx := by
    rw [hsplit1]
    exact get_s16_pack_here idx _ h1 h2
  have hrns : get_s16 (canonBuf idx ids) 2 = some 1 := by
    rw [hsplit1]
    exact (get_s16_at (pack_s16 idx) _ 0 2 rfl).trans rfl
  have hrnf : get_u8 (canonBuf idx ids) 4 = some 0 := by
    rw [hsplit2]
    exact (get_u8_at (pack_s16 idx ++ [0, 1]) _ 0 4
      (by simp [pack_s16, pack_u16])).trans rfl
  have hrnk : get_u8 (canonBuf idx ids) 5 = some 0 := by
    rw [hsplit2]
    exact (get_u8_at (pack_s16 idx ++ [0, 1]) _ 1 5
      (by simp [pack_s16, pack_u16])).trans rfl
  have hrnt : get_u8 (canonBuf idx ids) 6 = some ids.length := by
    rw [hsplit2]
    exact (get_u8_at (pack_s16 idx ++ [0, 1]) _ 2 6
      (by simp [pack_s16, pack_u16])).trans rfl
  -- the single TDB1 section
  have hmagic : pySlice 8 12 (canonBuf idx ids) = [84, 68, 66, 49] := by
    rw [hsplitH]
    exact (pySlice_at (pack_s16 idx ++ ([0, 1] ++ [0, 0, ids.length, 0])) _
      8 12 4 (by simp [pack_s16, pack_u16]) rfl).trans rfl
  have hrsz : get_s32 (canonBuf idx ids) 12
      = some (((tdbBody ids).length + 8 : Nat) : Int) := by
    rw [hsplit12]
    exact (get_s32_at
      ((pack_s16 idx ++ ([0, 1] ++ [0, 0, ids.length, 0])) ++ [84, 68, 66, 49])
      _ 0 12 (by simp [pack_s16, pack_u16])).trans
      (get_s32_pack_nat ((tdbBody ids).length + 8) (tdbBody ids) hsmall)
  have hTlen : ([84, 68, 66, 49]
      ++ (pack_s32 (((tdbBody ids).length + 8 : Nat) : Int)
          ++ tdbBody ids)).length = (tdbBody ids).length + 8 := by
    simp [pack_s32, pack_u32]
  have hblock : pySlice 8 (8 + ((tdbBody ids).length + 8)) (canonBuf idx ids)
      = [84, 68, 66, 49]
        ++ (pack_s32 (((tdbBody ids).length + 8 : Nat) : Int)
            ++ tdbBody ids) := by
    rw [hsplitH]
    refine (pySlice_at (pack_s16 idx ++ ([0, 1] ++ [0, 0, ids.length, 0])) _
      8 (8 + ((tdbBody ids).length + 8)) ((tdbBody ids).length + 8)
      (by simp [pack_s16, pack_u16]) rfl).trans ?_
    nth_rewrite 1 [← hTlen]
    rw [List.take_length]
  have hids2 : readTextureIds
      ([84, 68, 66, 49]
        ++ (pack_s32 (((tdbBody ids).length + 8 : Nat) : Int) ++ tdbBody ids))
      0 ids.length = some ids := by
    have hres : [84, 68, 66, 49]
        ++ (pack_s32 (((tdbBody ids).length + 8 : Nat) : Int) ++ tdbBody ids)
        = ([84, 68, 66, 49]
            ++ pack_s32 (((tdbBody ids).length + 8 : Nat) : Int))
          ++ ((ids.map pack_s16).flatten
              ++ align4pad ((ids.map pack_s16).flatten)) := by
      simp [tdbBody, List.append_assoc]
    rw [hres]
    exact readTextureIds_pack ids _ _ 0 (by simp [pack_s32, pack_u32]) hids
  have htoNat : ((((tdbBody ids).length + 8 : Nat) : Int)).toNat
      = (tdbBody ids).length + 8 := by omega
  have hloop : sectionLoop (canonBuf idx ids) ids.length 1 8 (initResource idx)
      = .ok ⟨idx, none, [], [], none, none, none, none, ids, [],
          8 + ((tdbBody ids).length + 8)⟩ := by
    simp only [sectionLoop, hmagic]
    rw [if_neg (by decide)]
    rw [hrsz]
    simp only [orErr, except_bind_ok, htoNat]
    rw [hblock]
    rw [if_neg (by decide), if_neg (by decide), if_neg (by decide),
      if_neg (by decide), if_neg (by decide), if_neg (by decide),
      if_neg (by decide)]
    simp only [if_true]
    rw [hids2]
    simp only [orErr, except_bind_ok, initResource, List.nil_append]
  unfold resourceUnpack
  simp only [Nat.zero_add]
  rw [hridx, hrns, hrnf, hrnk, hrnt]
  simp only [orErr, except_bind_ok, Int.toNat_one]
  rw [hloop]
  simp only [except_bind_ok]
  rfl

/-- C1, amended: `JPAResource.pack` canonicalizes (it always emits a TDB1
section, recomputes the section count, and zeroes the eighth header byte),
so `encode(decode(bytes))` equals `bytes` only for streams already in
canonical form; on canonical encodings the round trip is exact:
decoding `pack(r)` and re-encoding reproduces `pack(r)` byte for byte
(proved for chunk-free resources with in-range texture ids). -/
theorem resource_roundtrip_canonical (idx : Int) (ids : List Int)
    (h1 : -32768 ≤ idx) (h2 : idx < 32768)
    (hids : ∀ i ∈ ids, -32768 ≤ i ∧ i < 32768)
    (hlen : ids.length < 256) :
    ∃ r2, resourceUnpack (resourcePack (tdbResource idx ids)) 0 = .ok r2 ∧
      resourcePack r2 = resourcePack (tdbResource idx ids) ∧
      r2.index = idx ∧ r2.texture_ids = ids := by
  refine ⟨⟨idx, none, [], [], none, none, none, none, ids, [],
      8 + ((tdbBody ids).length + 8)⟩, ?_, ?_, rfl, rfl⟩
  · rw [resourcePack_tdbResource idx ids hlen]
    exact resourceUnpack_canonBuf idx ids h1 h2 hids hlen
  · simp [resourcePack, tdbResource]

/-- C1 amended, witness: a resource with index 1 and texture ids [2, -3]
round-trips through its own encoding. -/
theorem resource_roundtrip_canonical_witness :
    ∃ r2, resourceUnpack (resourcePack (tdbResource 1 [2, -3])) 0 = .ok r2 ∧
      resourcePack r2 = resourcePack (tdbResource 1 [2, -3]) ∧
      r2.index = 1 ∧ r2.texture_ids = [2, -3] :=
  resource_roundtrip_canonical 1 [2, -3] (by decide) (by decide)
    (by decide) (by decide)

/-! ### Claim C6: decoding past the buffer end

`U32ChunkBytes.unpack` (typedchunk.py lines 110-111) and the JPATexture
payload extraction (jpac210.py lines 30-33) are Python slices: they never
fault, they silently store the clamped (possibly shorter) slice.  Only the
fixed-width reads through the `pyaurum` struct codec fault past the end. -/

/-- `U32ChunkBytes.unpack`: `self.val = buffer[offset:offset + 4]`
(typedchunk.py lines 110-111). -/
def u32_chunk_bytes_unpack (buf : Buffer) (off : Nat) : Buffer :=
  pySlice off (off + 4) buf

/-- The decoded state of a `JPATexture` (jpac210.py lines 24-33). -/
structure TextureData where
  file_name : Buffer
  bti_data : Buffer
  total_size : Int

/-- `JPATexture.unpack` (jpac210.py lines 30-33): read the declared total
size (s32 at +4), the fixed 0x14-byte name at +0xC, and slice the BTI
payload from +0x20 to the declared end — a clamped Python slice.  Negative
declared sizes are outside the modelled range. -/
def jpaTextureUnpack (buf : Buffer) (off : Nat) : Option TextureData := do
  let ts ← get_s32 buf (off + 4)
  pure ⟨read_fixed_string buf (off + 12) 20,
    pySlice (off + 32) (off + ts.toNat) buf, ts⟩

/-- C6, counterexample: decoding the 4-byte raw blob field from a 2-byte
buffer does not fault; it silently stores the 2-byte truncated slice. -/
theorem u32_chunk_bytes_unpack_counterexample :
    u32_chunk_bytes_unpack [1, 2] 0 = [1, 2] ∧
    (u32_chunk_bytes_unpack [1, 2] 0).length ≠ 4 := by
  decide

/-- C6, amended: fixed-width integer reads through the primitive codec do
fault past the buffer end (here: u32), but the 4-byte raw blob field stores
the clamped slice of length `min 4 (len - off)` without any fault, and
Texture payload extraction likewise succeeds whenever its header reads
succeed, storing a clamped payload slice. -/
theorem raw_blob_unpack_truncates_silently (buf : Buffer) (off : Nat) :
    (u32_chunk_bytes_unpack buf off).length = min 4 (buf.length - off) ∧
    (buf.length < off + 4 → get_u32 buf off = none) ∧
    (∀ ts, get_s32 buf (off + 4) = some ts →
      jpaTextureUnpack buf off
        = some ⟨read_fixed_string buf (off + 12) 20,
            pySlice (off + 32) (off + ts.toNat) buf, ts⟩ ∧
      (pySlice (off + 32) (off + ts.toNat) buf).length
        = min (off + ts.toNat - (off + 32)) (buf.length - (off + 32))) := by
  refine ⟨?_, ?_, ?_⟩
  · simp [u32_chunk_bytes_unpack, pySlice, Nat.min_comm]
  · intro h
    have h3 : buf[off + 3]? = none := by
      rw [List.getElem?_eq_none]
      omega
    have h16 : get_u16 buf (off + 2) = none := by
      cases h2 : buf[off + 2]? <;>
        simp [get_u16, get_u8, h2, show off + 2 + 1 = off + 3 by omega, h3]
    cases h0 : get_u16 buf off <;> simp [get_u32, h0, h16]
  · intro ts hts
    refine ⟨by simp [jpaTextureUnpack, hts], ?_⟩
    simp [pySlice, Nat.min_comm]

/-- C6 amended, witness: on the buffer [1, 2] at offset 0 the u32 read
faults while the raw blob field stores the 2-byte slice. -/
theorem raw_blob_unpack_truncates_silently_witness :
    get_u32 [1, 2] 0 = none :=
  (raw_blob_unpack_truncates_silently [1, 2] 0).2.1 (by decide)

/-! ### Claim C9: texture-ID resolution at container encode
(jpac210.py lines 891-923) -/

/-- Python `list.index` restricted to its found/not-found behavior: the
first position of `x`, or `None` (the `ValueError` case). -/
def listIndex (xs : List String) (x : String) : Option Nat :=
  match xs with
  | [] => none
  | y :: ys => if y = x then some 0 else (listIndex ys x).map (· + 1)

/-- The per-particle texture-ID rebuild loop of `JParticlesContainer.pack`
(jpac210.py lines 901-909): clear the ID list, then for each texture name
append `texture_name_to_id.index(name)`, silently skipping names that raise
`ValueError`. -/
def resolveTextureIds (keys : List String) : List String → List Nat
  | [] => []
  | n :: ns =>
    match listIndex keys n with
    | some i => i :: resolveTextureIds keys ns
    | none => resolveTextureIds keys ns

/-- `JPATexture.pack` (jpac210.py lines 35-47): TEX1 magic, recomputed total
size, reserved zero, fixed 0x14-byte name, payload, 32-byte alignment. -/
def texturePack (t : TextureData) : Buffer :=
  let out_name := pack_fixed_string t.file_name 20
  let out_pad_bti := align32pad t.bti_data
  let total_size : Int := 32 + t.bti_data.length + out_pad_bti.length
  pack_s32 1413830705 ++ pack_s32 total_size ++ pack_s32 0
    ++ out_name ++ t.bti_data ++ out_pad_bti

/-- `JParticlesContainer.pack` (jpac210.py lines 891-923): magic, counts,
texture-offset placeholder; each particle re-encoded with its texture-ID
table rebuilt by name lookup against the container's current key order;
32-byte alignment; the texture-table offset written back at 0xC; then the
textures in map order. -/
def containerPack (particles : List Resource)
    (textures : List (String × TextureData)) : Buffer :=
  let header := [74, 80, 65, 67, 50, 45, 49, 48]
    ++ pack_u16 particles.length ++ pack_u16 textures.length ++ pack_u32 0
  let texture_name_to_id := textures.map Prod.fst
  let body := (particles.map (fun p =>
    let newIds := (resolveTextureIds texture_name_to_id p.texture_names).map
      (fun n => (n : Int))
    resourcePack { p with texture_ids := newIds })).flatten
  let outBuf := header ++ body
  let outBuf2 := outBuf ++ align32pad outBuf
  let outBuf3 := writeSlice outBuf2 12 (pack_u32 outBuf2.length)
  outBuf3 ++ (textures.map (fun t => texturePack t.2)).flatten

/-- C9: the texture-ID table rebuilt at container encode keeps exactly the
names present in the container, each mapped to its current (first) position
in the container's key ordering, in reference order; names absent from the
container are silently omitted (no fault), and a returned index is always a
valid position holding that name, with no earlier position holding it. -/
theorem container_texture_resolution (keys names : List String) :
    resolveTextureIds keys names = names.filterMap (listIndex keys) ∧
    (∀ n, n ∉ keys → listIndex keys n = none) ∧
    (∀ n, n ∈ keys → ∃ i, listIndex keys n = some i) ∧
    (∀ n i, listIndex keys n = some i →
      i < keys.length ∧ keys.getD i "" = n ∧
        ∀ j, j < i → keys.getD j "" ≠ n) := by
  refine ⟨?_, ?_, ?_, ?_⟩
  · induction names with
    | nil => rfl
    | cons n ns ih =>
      cases h : listIndex keys n <;>
        simp [resolveTextureIds, List.filterMap_cons, h, ih]
  · intro n hn
    induction keys with
    | nil => rfl
    | cons k ks ih =>
      have hk : k ≠ n := fun h => hn (by simp [h])
      simp only [listIndex, if_neg hk]
      rw [ih (fun h => hn (by simp [h]))]
      rfl
  · intro n hn
    induction keys with
    | nil => cases hn
    | cons k ks ih =>
      by_cases hk : k = n
      · exact ⟨0, by simp [listIndex, hk]⟩
      · obtain ⟨i, hi⟩ := ih (by
          rcases List.mem_cons.mp hn with h | h
          · exact absurd h.symm hk
          · exact h)
        exact ⟨i + 1, by simp [listIndex, hk, hi]⟩
  · intro n i
    induction keys generalizing i with
    | nil => intro h; cases h
    | cons k ks ih =>
      intro h
      by_cases hk : k = n
      · have : i = 0 := by
          simpa [listIndex, hk] using h.symm
        subst this
        exact ⟨by simp, by simp [hk], fun j hj => absurd hj (by omega)⟩
      · simp only [listIndex, if_neg hk] at h
        cases hrec : listIndex ks n with
        | none => rw [hrec] at h; cases h
        | some i2 =>
          rw [hrec] at h
          replace h : i2 + 1 = i := by simpa using h
          obtain ⟨hlt, hget, hfirst⟩ := ih i2 hrec
          refine ⟨?_, ?_, ?_⟩
          · simp only [List.length_cons]; omega
          · rw [← h, List.getD_cons_succ]
            exact hget
          · intro j hj
            cases j with
            | zero =>
              rw [List.getD_cons_zero]
              exact hk
            | succ j2 =>
              have hj2 : j2 < i2 := by omega
              rw [List.getD_cons_succ]
              exact hfirst j2 hj2

/-- C9, witness: with container keys [a, b] and references [a, c], only a
is resolved, to its current position 0, and c is silently dropped. -/
theorem container_texture_resolution_witness :
    listIndex ["a", "b"] "c" = none :=
  (container_texture_resolution ["a", "b"] []).2.1 "c" (by decide)

end Pygapa
